import Mathlib

/-!
Shallow embedding of the heuristic field-extraction and normalization engine
of the go-pickleball repository (src/backend/python), together with proofs
about the embedded operations.

Strings are modelled as `List Char`; Python floats are modelled as exact
rationals (every Python float is a dyadic rational, and all literals and
comparisons appearing in the engine are exact at this granularity).
`float(...)` is modelled on the numeric-literal fragment it receives from
the scraping pipeline (sign, digits, decimal point, exponent); the regex
fragments used by the code are modelled by direct scanners, which coincide
with the Python regexes on these patterns because the subpatterns involved
match disjoint character classes, so no backtracking can occur.
-/

namespace Spec2Proof

/-- Python whitespace characters (the ASCII fragment of str.strip / regex ws). -/
def isPyWs (c : Char) : Bool :=
  c = ' ' || c = '\t' || c = '\n' || c = '\r' || c = Char.ofNat 11 || c = Char.ofNat 12

/-- str.lower on the ASCII letters (the engine only handles Latin text). -/
def pyLowerChar (c : Char) : Char :=
  if 'A' ≤ c ∧ c ≤ 'Z' then Char.ofNat (c.toNat + 32) else c

def pyLower (s : List Char) : List Char := s.map pyLowerChar

def stripL (s : List Char) : List Char := s.dropWhile isPyWs

def stripR (s : List Char) : List Char := (s.reverse.dropWhile isPyWs).reverse

/-- Python str.strip(). -/
def pyStrip (s : List Char) : List Char := stripR (stripL s)

/-- Python str.replace: replace every non-overlapping occurrence of `pat`
(left to right) by `rep`.  Fueled by the length of the string; each step
consumes at least one character, so `s.length` fuel is always enough. -/
def replaceAllFuel (pat rep : List Char) : Nat → List Char → List Char
  | 0, s => s
  | _ + 1, [] => []
  | f + 1, c :: cs =>
    if pat ≠ [] ∧ pat.isPrefixOf (c :: cs) then
      rep ++ replaceAllFuel pat rep f (List.drop pat.length (c :: cs))
    else
      c :: replaceAllFuel pat rep f cs

def replaceAll (pat rep s : List Char) : List Char :=
  replaceAllFuel pat rep s.length s

/-- Value of a digit string (the digits of a regex match). -/
def digitsToNat (ds : List Char) : Nat :=
  ds.foldl (fun a c => a * 10 + (c.toNat - 48)) 0

/-- Exponent suffix of a Python float literal: empty, or e/E, sign, digits. -/
def expPart (mant : ℚ) (r : List Char) : Option ℚ :=
  if r = [] then some mant
  else if r.head? = some 'e' ∨ r.head? = some 'E' then
    let r1 := r.tail
    let es : Int := if r1.head? = some '-' then -1 else 1
    let r2 := if r1.head? = some '+' ∨ r1.head? = some '-' then r1.tail else r1
    let ed := r2.takeWhile Char.isDigit
    if ed = [] ∨ r2.dropWhile Char.isDigit ≠ [] then none
    else some (mant * (10 : ℚ) ^ (es * (digitsToNat ed : Int)))
  else none

/-- Unsigned part of a Python float literal: digits, optional point, digits,
optional exponent; at least one mantissa digit required. -/
def floatParseCore (t : List Char) : Option ℚ :=
  let ip := t.takeWhile Char.isDigit
  let t1 := t.dropWhile Char.isDigit
  let hasDot : Bool := t1.head? = some '.'
  let fp := if hasDot then t1.tail.takeWhile Char.isDigit else []
  let t2 := if hasDot then t1.tail.dropWhile Char.isDigit else t1
  if ip = [] ∧ fp = [] then none
  else expPart ((digitsToNat ip : ℚ) + (digitsToNat fp : ℚ) / (10 : ℚ) ^ fp.length) t2

/-- Python float(str) on the numeric-literal fragment: surrounding whitespace
stripped, optional sign, then an unsigned float literal. -/
def floatParse (s : List Char) : Option ℚ :=
  let t := pyStrip s
  if t.head? = some '+' then floatParseCore t.tail
  else if t.head? = some '-' then (floatParseCore t.tail).map Neg.neg
  else floatParseCore t

/-- The token matched by the regex (\d+\.?\d*) when its first character is a
digit: maximal digit run, then optionally a point and a further digit run. -/
def numTokenAt (s : List Char) : List Char :=
  let ds := s.takeWhile Char.isDigit
  let r := s.dropWhile Char.isDigit
  if r.head? = some '.' then ds ++ '.' :: r.tail.takeWhile Char.isDigit else ds

/-- re.search(r'(\d+\.?\d*)', s): the leftmost number token, if any. -/
def pyFindNumber : List Char → Option (List Char)
  | [] => none
  | c :: cs => if c.isDigit then some (numTokenAt (c :: cs)) else pyFindNumber cs

/-- Python str.split() with no argument: split on whitespace runs,
discarding empty pieces. -/
def pySplitWsAux : List Char → List Char → List (List Char)
  | [], acc => if acc = [] then [] else [acc.reverse]
  | c :: cs, acc =>
    if isPyWs c then
      if acc = [] then pySplitWsAux cs []
      else acc.reverse :: pySplitWsAux cs []
    else pySplitWsAux cs (c :: acc)

def pySplitWs (s : List Char) : List (List Char) := pySplitWsAux s []

/-- Python str.split(sep) for a one-character separator: keeps empty pieces. -/
def splitOnCharAux (sep : Char) : List Char → List Char → List (List Char)
  | [], acc => [acc.reverse]
  | c :: cs, acc =>
    if c = sep then acc.reverse :: splitOnCharAux sep cs []
    else splitOnCharAux sep cs (c :: acc)

def splitOnChar (sep : Char) (s : List Char) : List (List Char) :=
  splitOnCharAux sep s []

/-- Case-insensitive literal match at the start of a string
(the IGNORECASE regexes lower both sides). -/
def ciStartsWith : List Char → List Char → Bool
  | [], _ => true
  | _ :: _, [] => false
  | p :: ps, c :: cs => pyLowerChar p = pyLowerChar c && ciStartsWith ps cs

/-- Case-insensitive occurrence of `pat` anywhere in the string. -/
def ciOccurs (pat : List Char) : List Char → Bool
  | [] => ciStartsWith pat []
  | c :: cs => ciStartsWith pat (c :: cs) || ciOccurs pat cs

/-- Case-sensitive substring test (Python `in` on strings). -/
def occursIn (pat : List Char) : List Char → Bool
  | [] => pat.isPrefixOf []
  | c :: cs => pat.isPrefixOf (c :: cs) || occursIn pat cs

namespace DataModels

/-- data_models.generate_paddle_id: brand.lower().replace(" ", "-"), same for
model, joined with a hyphen. -/
def slug (s : List Char) : List Char := replaceAll [' '] ['-'] (pyLower s)

def generate_paddle_id (brand model : List Char) : List Char :=
  slug brand ++ '-' :: slug model

/-- data_models.extract_float: first (\d+\.?\d*) substring as a float;
None for the empty string or when no digit occurs. -/
def extract_float (text : List Char) : Option ℚ :=
  if text = [] then none
  else
    match pyFindNumber text with
    | some tok => floatParse tok
    | none => none

/-- data_models.determine_paddle_shape_from_length. -/
def determine_paddle_shape_from_length (paddle_length : ℚ) : List Char :=
  if paddle_length ≥ (16.5 : ℚ) then "Elongated".data
  else if paddle_length ≥ (16.25 : ℚ) then "Hybrid".data
  else "Wide-body".data

/-- The shape_mapping dictionary of data_models.normalize_paddle_shape,
as a lookup on the lowered and stripped label. -/
def shapeMappingLookup (k : List Char) : Option (List Char) :=
  if k = "elongated".data ∨ k = "elongated shape".data ∨ k = "long".data then
    some "Elongated".data
  else if k = "hybrid".data ∨ k = "hybrid shape".data then
    some "Hybrid".data
  else if k = "wide-body".data ∨ k = "widebody".data ∨ k = "wide body".data ∨
      k = "standard".data ∨ k = "teardrop".data ∨ k = "traditional".data ∨
      k = "classic".data then
    some "Wide-body".data
  else if k = [] then some "Wide-body".data
  else none

/-- data_models.normalize_paddle_shape. -/
def normalize_paddle_shape (shape : List Char) : List Char :=
  if shape = [] then "Wide-body".data
  else (shapeMappingLookup (pyStrip (pyLower shape))).getD "Wide-body".data

/-- The pipe look-alike characters removed by clean_model_name. -/
def pipeChars : List Char := ['|', '│', '｜', '︱', '丨']

/-- Step 1 of clean_model_name: re.sub(r'\s*\|\s*.*$', '', model) -- truncate
at the first ASCII pipe, dropping the whitespace run before it (modelled for
single-line titles, which is the scraped domain). -/
def takeUntilPipe : List Char → List Char
  | [] => []
  | c :: cs => if c = '|' then [] else c :: takeUntilPipe cs

def truncAtPipe (s : List Char) : List Char :=
  if '|' ∈ s then stripR (takeUntilPipe s) else s

/-- Step 2: remove the Unicode pipe look-alikes outright. -/
def removePipeChars (s : List Char) : List Char :=
  s.filter (fun c => !(pipeChars.contains c))

/-- The unwanted_suffixes list of clean_model_name, in source order. -/
def unwantedSuffixes : List (List Char) :=
  ["Pickleball Paddle".data, "Paddle".data, " - PBC".data, " - NEW".data,
   " - Limited Edition".data, " - LE".data, " -".data, "|".data, "│".data,
   " - Elongated".data, " - Standard".data, " - Teardrop".data]

/-- One pass of the suffix loop: if the current string ends with the suffix,
drop it and strip whitespace. -/
def stripSuffixStep (s suf : List Char) : List Char :=
  if suf.isSuffixOf s then pyStrip (s.take (s.length - suf.length)) else s

def stripSuffixes (s : List Char) : List Char :=
  unwantedSuffixes.foldl stripSuffixStep s

/-- Split a string at the first occurrence of a character. -/
def splitFirst (t : Char) : List Char → Option (List Char × List Char)
  | [] => none
  | c :: cs =>
    if c = t then some ([], cs)
    else (splitFirst t cs).map (fun p => (c :: p.1, p.2))

/-- Step 4 core: re.sub(r'\s*\([^)]*\)\s*', ' ', model) -- every parenthetical
(whitespace before the open paren, text up to the first close paren, trailing
whitespace) becomes a single space; scanning continues after the match. -/
def parenSubFuel : Nat → List Char → List Char
  | 0, s => s
  | f + 1, s =>
    match splitFirst '(' s with
    | none => s
    | some (pre, rest) =>
      match splitFirst ')' rest with
      | none => s
      | some (_, post) => stripR pre ++ ' ' :: parenSubFuel f (post.dropWhile isPyWs)

def parenSub (s : List Char) : List Char := parenSubFuel s.length s

def removeParens (s : List Char) : List Char := pyStrip (parenSub s)

/-- Word characters of the regex \b boundary (ASCII fragment of \w). -/
def isWordChar (c : Char) : Bool := c.isAlpha || c.isDigit || c = '_'

/-- Step 5 core: re.sub of a whole-word, case-insensitive occurrence of a
descriptor with the empty string; `prev` is the character just before the
current scan position (for the left word boundary).  The descriptors start
and end with word characters, so a boundary holds exactly when the
neighbouring character is absent or a non-word character. -/
def removeWordCiFuel (pat : List Char) : Nat → Option Char → List Char → List Char
  | 0, _, s => s
  | _ + 1, _, [] => []
  | f + 1, prev, c :: cs =>
    let leftOk := match prev with
      | none => true
      | some p => !(isWordChar p)
    let rest := List.drop pat.length (c :: cs)
    let rightOk := match rest with
      | [] => true
      | r :: _ => !(isWordChar r)
    if leftOk && ciStartsWith pat (c :: cs) && rightOk then
      removeWordCiFuel pat f ((c :: cs).get? (pat.length - 1)) rest
    else
      c :: removeWordCiFuel pat f (some c) cs

def removeWordCi (pat s : List Char) : List Char :=
  removeWordCiFuel pat s.length none s

/-- The common_descriptors list of clean_model_name ("New" appears twice in
the source; under IGNORECASE the second pass is a no-op). -/
def commonDescriptors : List (List Char) :=
  ["New".data, "NEW".data, "Limited Edition".data, "SALE".data, "In Stock".data]

def removeDescriptors (s : List Char) : List Char :=
  commonDescriptors.foldl (fun acc d => removeWordCi d acc) s

/-- One character of re.sub(r'\s+', ' ', model): a whitespace character
starts a single space unless one is already pending. -/
def collapseStep (c : Char) (acc : List Char) : List Char :=
  if isPyWs c then
    match acc with
    | ' ' :: _ => acc
    | _ => ' ' :: acc
  else c :: acc

/-- Step 6: re.sub(r'\s+', ' ', model), to be followed by .strip(). -/
def collapseWs (s : List Char) : List Char := s.foldr collapseStep []

/-- data_models.clean_model_name, steps in source order. -/
def clean_model_name (model : List Char) : List Char :=
  if model = [] then model
  else
    let s1 := removePipeChars (truncAtPipe model)
    let s2 := stripSuffixes s1
    let s3 := removeDescriptors (removeParens s2)
    pyStrip (collapseWs s3)

end DataModels

namespace PaddleScraper

/-- paddle_scraper.extract_float unit stripping:
text.replace('in', '').replace('oz', '').replace('ounces', '').strip(). -/
def unitStrip (s : List Char) : List Char :=
  pyStrip (replaceAll "ounces".data []
    (replaceAll "oz".data [] (replaceAll "in".data [] s)))

/-- float(a)/float(b) under the try/except: None on a parse failure or a
zero denominator (caught ZeroDivisionError). -/
def fracValue (a b : List Char) : Option ℚ :=
  match floatParse a, floatParse b with
  | some x, some y => if y = 0 then none else some (x / y)
  | _, _ => none

/-- The mixed-number branch: a two-part whitespace split whose second part
holds a fraction. -/
def mixedBranch (t : List Char) : Option ℚ :=
  if ' ' ∈ t then
    match pySplitWs t with
    | [p0, p1] =>
      match floatParse p0 with
      | some whole =>
        if '/' ∈ p1 then
          match splitOnChar '/' p1 with
          | [a, b] => (fracValue a b).map (fun f => whole + f)
          | _ => none
        else none
      | none => none
    | _ => none
  else none

/-- The simple-fraction branch, entered when the text holds exactly one '/'. -/
def fracBranch (t : List Char) : Option ℚ :=
  if '/' ∈ t ∧ t.count '/' = 1 then
    match splitOnChar '/' t with
    | [a, b] => fracValue a b
    | _ => none
  else none

/-- paddle_scraper.extract_float: units stripped, then mixed numbers, simple
fractions and plain numbers, in that order; None when nothing matches. -/
def extract_float (text : List Char) : Option ℚ :=
  if text = [] then none
  else
    let t := unitStrip text
    match mixedBranch t with
    | some v => some v
    | none =>
      match fracBranch t with
      | some v => some v
      | none =>
        match pyFindNumber t with
        | some tok => floatParse tok
        | none => none

end PaddleScraper

/-- The Performance dataclass of data_models. -/
structure Performance where
  power : ℚ
  pop : ℚ
  spin : ℚ
  twist_weight : ℚ
  swing_weight : ℚ
  balance_point : ℚ
deriving DecidableEq

namespace CentralScraper

/-- The shape_keywords table of scrape_central_paddles, in source (dict
insertion) order: category label paired with its keyword list. -/
def shape_keywords : List (List Char × List (List Char)) :=
  [("Elongated".data, ["elongated".data, "long".data, "16.5".data, "16.75".data]),
   ("Hybrid".data, ["hybrid".data, "16.25".data, "16.3".data]),
   ("Standard".data, ["standard".data, "traditional".data, "classic".data,
      "16".data, "16.0".data])]

/-- The description fallback of scrape_central_paddles: first category whose
keyword occurs (lower-cased) in the lower-cased description. -/
def keywordShape (description : List Char) : Option (List Char) :=
  (shape_keywords.find?
      (fun p => p.2.any (fun k => occursIn (pyLower k) (pyLower description)))).map
    (fun p => p.1)

/-- The shape determination of scrape_central_paddles: from the structured
paddle_length text when it is present, non-empty and holds a number
(normalized through normalize_paddle_shape); otherwise from description
keywords (not normalized); otherwise the literal default "Standard". -/
def centralShape (paddle_length_spec : Option (List Char))
    (description : List Char) : List Char :=
  let fromLength : Option (List Char) :=
    match paddle_length_spec with
    | some lt =>
      if lt ≠ [] then
        match pyFindNumber lt with
        | some tok =>
          match floatParse tok with
          | some q =>
            some (DataModels.normalize_paddle_shape
              (DataModels.determine_paddle_shape_from_length q))
          | none => none
        | none => none
      else none
    | none => none
  match fromLength with
  | some s => s
  | none =>
    match keywordShape description with
    | some s => s
    | none => "Standard".data

/-- The performance block of scrape_central_paddles: fixed baselines plus the
random.uniform jitters (passed here as parameters), always constructed. -/
def centralPerformance (j₁ j₂ j₃ j₄ j₅ j₆ : ℚ) : Option Performance :=
  some
    { power := 80 + j₁
      pop := 75 + j₂
      spin := 3000 + j₃
      twist_weight := 200 + j₄
      swing_weight := 215 + j₅
      balance_point := 29 + j₆ }

end CentralScraper

namespace GalaxyScraper

/-- specs_data dictionary lookup (keys are unique by dict construction). -/
def lookupSpec (key : List Char) (sd : List (List Char × List Char)) :
    Option (List Char) :=
  (sd.find? (fun p => p.1 = key)).map (fun p => p.2)

/-- Python truthiness of an optional float: present and non-zero. -/
def pyTruthy : Option ℚ → Bool
  | some v => v ≠ 0
  | none => false

/-- The weight handling of PickleballGalaxyScraper.scrape_paddle on the raw
'weight' value: strip 'ounces', then average a two-part hyphen range, else
fall back to data_models.extract_float. -/
def galaxyWeightValue (w : List Char) : Option ℚ :=
  let ws := pyStrip (replaceAll "ounces".data [] w)
  if '-' ∈ ws then
    match splitOnChar '-' ws with
    | [a, b] =>
      match floatParse a, floatParse b with
      | some mn, some mx => some ((mn + mx) / 2)
      | _, _ => none
    | _ => none
  else DataModels.extract_float ws

def galaxyWeight (sd : List (List Char × List Char)) : Option ℚ :=
  match lookupSpec "weight".data sd with
  | some w => galaxyWeightValue w
  | none => none

/-- The shape handling of scrape_paddle: derived from the extracted length
only when that length is truthy; otherwise left unset. -/
def galaxyShape (length : Option ℚ) : Option (List Char) :=
  match length with
  | some l =>
    if l ≠ 0 then
      some (DataModels.normalize_paddle_shape
        (DataModels.determine_paddle_shape_from_length l))
    else none
  | none => none

/-- Strategy 1 for core thickness: the structured 'core thickness' entry,
'mm' removed, through data_models.extract_float. -/
def galaxyStructuredCore (sd : List (List Char × List Char)) : Option ℚ :=
  match lookupSpec "core thickness".data sd with
  | some v => DataModels.extract_float (pyStrip (replaceAll "mm".data [] v))
  | none => none

/-- Characters of the regex class [:\s]. -/
def isColonWs (c : Char) : Bool := c = ':' || isPyWs c

/-- Match of r'(\d+\.?\d*)\s*mm\s*core' (IGNORECASE) anchored at the start of
the string: returns the captured number token. -/
def pNumMmCoreAt (s : List Char) : Option (List Char) :=
  match s with
  | [] => none
  | c :: _ =>
    if c.isDigit then
      let tok := numTokenAt s
      let r1 := (List.drop tok.length s).dropWhile isPyWs
      if ciStartsWith "mm".data r1 then
        let r2 := (List.drop 2 r1).dropWhile isPyWs
        if ciStartsWith "core".data r2 then some tok else none
      else none
    else none

def searchNumMmCore : List Char → Option (List Char)
  | [] => none
  | c :: cs =>
    match pNumMmCoreAt (c :: cs) with
    | some g => some g
    | none => searchNumMmCore cs

/-- Match of r'LIT[:\s]*(\d+\.?\d*)' (IGNORECASE) anchored at the start. -/
def pLitNumAt (lit : List Char) (s : List Char) : Option (List Char) :=
  if ciStartsWith lit s then
    let r := (List.drop lit.length s).dropWhile isColonWs
    match r with
    | c :: _ => if c.isDigit then some (numTokenAt r) else none
    | [] => none
  else none

def searchLitNum (lit : List Char) : List Char → Option (List Char)
  | [] => none
  | c :: cs =>
    match pLitNumAt lit (c :: cs) with
    | some g => some g
    | none => searchLitNum lit cs

/-- Strategy 2 for core thickness: the three regex patterns over the
description text, first match wins. -/
def galaxyRegexCore (text : List Char) : Option ℚ :=
  match searchNumMmCore text with
  | some g => floatParse g
  | none =>
    match searchLitNum "core thickness".data text with
    | some g => floatParse g
    | none =>
      match searchLitNum "core".data text with
      | some g => floatParse g
      | none => none

/-- Match of r'(\d+\.?\d*)mm' (IGNORECASE) anchored at the start. -/
def pNumMmAt (s : List Char) : Option (List Char) :=
  match s with
  | [] => none
  | c :: _ =>
    if c.isDigit then
      let tok := numTokenAt s
      if ciStartsWith "mm".data (List.drop tok.length s) then some tok else none
    else none

def searchNumMm : List Char → Option (List Char)
  | [] => none
  | c :: cs =>
    match pNumMmAt (c :: cs) with
    | some g => some g
    | none => searchNumMm cs

/-- Strategy 3 for core thickness: a number followed by 'mm' in the title. -/
def galaxyTitleCore (title : List Char) : Option ℚ :=
  match searchNumMm title with
  | some g => floatParse g
  | none => none

/-- The full core-thickness resolution of scrape_paddle.  Each `if not
core_thickness:` guard in the source treats both None and 0.0 as missing, so
every non-truthy intermediate result falls through, and a final non-truthy
value is reset to None. -/
def galaxyCoreThickness (sd : List (List Char × List Char))
    (specs_text title_text : List Char) : Option ℚ :=
  let c₀ := galaxyStructuredCore sd
  let c₁ := if pyTruthy c₀ then c₀ else galaxyRegexCore specs_text
  let c₂ := if pyTruthy c₁ then c₁ else galaxyTitleCore title_text
  if pyTruthy c₂ then c₂ else none

/-- scrape_paddle never synthesizes performance metrics (the source sets
performance = None unconditionally). -/
def galaxyPerformance : Option Performance := none

end GalaxyScraper

/-- No two consecutive spaces occur in the string. -/
def noDoubleSpace : List Char → Bool
  | a :: b :: rest => !(a = ' ' && b = ' ') && noDoubleSpace (b :: rest)
  | _ => true

/-- Cleaned normal form: a string on which every step of clean_model_name is
the identity: no pipe look-alikes, whitespace already normalized (only
single interior spaces), no parentheses, no trailing unwanted suffix, and no
case-insensitive occurrence of a promotional descriptor. -/
def CleanNF (s : List Char) : Prop :=
  (∀ c ∈ s, DataModels.pipeChars.contains c = false) ∧
  (∀ c ∈ s, isPyWs c = true → c = ' ') ∧
  noDoubleSpace s = true ∧
  s.head? ≠ some ' ' ∧
  s.getLast? ≠ some ' ' ∧
  '(' ∉ s ∧
  (∀ suf ∈ DataModels.unwantedSuffixes, suf.isSuffixOf s = false) ∧
  (∀ d ∈ DataModels.commonDescriptors, ciOccurs d s = false)

instance (s : List Char) : Decidable (CleanNF s) := by
  unfold CleanNF
  infer_instance

/-! ## Claim theorems: concrete and structural facts -/

/-- C1: the record-assembly shape field is not confined to the canonical
three-value enumeration: the central scraper's keyword/default path emits
the raw label "Standard" (bypassing normalize_paddle_shape, whose mapping
sends "standard" to "Wide-body"), its default is "Standard" rather than
"Wide-body", and the galaxy scraper leaves shape unset when no length is
available. -/
theorem central_shape_not_canonical :
    CentralScraper.centralShape none "".data = "Standard".data ∧
    CentralScraper.centralShape none "a traditional paddle".data = "Standard".data ∧
    "Standard".data ∉ ["Elongated".data, "Hybrid".data, "Wide-body".data] ∧
    DataModels.normalize_paddle_shape "Standard".data = "Wide-body".data ∧
    GalaxyScraper.galaxyShape none = none := by
  decide

/-- C2: the central scraper always fabricates a Performance record from fixed
baselines plus random jitter (here the jitter draws are parameters), while
the galaxy scraper leaves performance unset; so the engine does synthesize
performance values, contradicting the never-fabricate policy. -/
theorem performance_fabricated_central (j₁ j₂ j₃ j₄ j₅ j₆ : ℚ) :
    CentralScraper.centralPerformance j₁ j₂ j₃ j₄ j₅ j₆ ≠ none ∧
    GalaxyScraper.galaxyPerformance = none := by
  exact ⟨by simp [CentralScraper.centralPerformance], rfl⟩

/-- C3 counterexample: the numeric normalizer extract_float has no range
rule; on "7.9-8.3 ounces" it returns the first number 7.9, not the mean
8.1. -/
theorem range_mean_not_in_extract_float :
    PaddleScraper.extract_float "7.9-8.3 ounces".data = some ((79 : ℚ) / 10) ∧
    PaddleScraper.extract_float "7.9-8.3 ounces".data ≠ some ((81 : ℚ) / 10) := by
  have h : PaddleScraper.extract_float "7.9-8.3 ounces".data = some ((79 : ℚ) / 10) := by
    simp [PaddleScraper.extract_float, PaddleScraper.unitStrip,
      PaddleScraper.mixedBranch, PaddleScraper.fracBranch, PaddleScraper.fracValue,
      replaceAll, replaceAllFuel, pySplitWs, pySplitWsAux, splitOnChar, splitOnCharAux,
      pyFindNumber, numTokenAt, floatParse, floatParseCore, expPart, pyStrip, stripL,
      stripR, digitsToNat, isPyWs] <;> norm_num
  refine ⟨h, fun hc => ?_⟩
  rw [h] at hc
  have : ((79 : ℚ) / 10) = (81 : ℚ) / 10 := Option.some.inj hc
  norm_num at this

/-- C4 counterexample: the name cleaner is not idempotent: parenthetical
removal exposes a trailing "Paddle" suffix that only a second pass strips. -/
theorem clean_model_name_not_idempotent :
    DataModels.clean_model_name
        (DataModels.clean_model_name "Alpha Paddle (Blue)".data) ≠
      DataModels.clean_model_name "Alpha Paddle (Blue)".data ∧
    DataModels.clean_model_name "Alpha Paddle (Blue)".data = "Alpha Paddle".data ∧
    DataModels.clean_model_name "Alpha Paddle".data = "Alpha".data := by
  decide

/-- C5 counterexample: a zero denominator does not yield Missing: the failed
fraction branches fall through to the plain-number rule, so "1/0" parses to
1.0 and "4 1/0" to 4.0. -/
theorem zero_denominator_falls_through :
    PaddleScraper.extract_float "1/0".data = some 1 ∧
    PaddleScraper.extract_float "4 1/0".data = some 4 := by
  constructor <;>
    simp [PaddleScraper.extract_float, PaddleScraper.unitStrip,
      PaddleScraper.mixedBranch, PaddleScraper.fracBranch, PaddleScraper.fracValue,
      replaceAll, replaceAllFuel, pySplitWs, pySplitWsAux, splitOnChar, splitOnCharAux,
      pyFindNumber, numTokenAt, floatParse, floatParseCore, expPart, pyStrip, stripL,
      stripR, digitsToNat, isPyWs]

/-- C7 counterexample: a structured 'core thickness' entry that parses to 0.0
does not short-circuit the later strategies: the truthiness guard treats it
as missing and the regex strategy supplies the result. -/
theorem core_zero_not_short_circuit :
    GalaxyScraper.galaxyStructuredCore [("core thickness".data, "0mm".data)] =
      some 0 ∧
    GalaxyScraper.galaxyCoreThickness [("core thickness".data, "0mm".data)]
        "core: 13".data "".data = some 13 := by
  constructor <;>
    simp [GalaxyScraper.galaxyCoreThickness, GalaxyScraper.galaxyStructuredCore,
      GalaxyScraper.galaxyRegexCore, GalaxyScraper.galaxyTitleCore,
      GalaxyScraper.searchNumMmCore, GalaxyScraper.pNumMmCoreAt,
      GalaxyScraper.searchLitNum, GalaxyScraper.pLitNumAt,
      GalaxyScraper.searchNumMm, GalaxyScraper.pNumMmAt, GalaxyScraper.isColonWs,
      ciStartsWith, pyLowerChar, GalaxyScraper.lookupSpec, GalaxyScraper.pyTruthy,
      DataModels.extract_float, replaceAll, replaceAllFuel, pyFindNumber, numTokenAt,
      floatParse, floatParseCore, expPart, pyStrip, stripL, stripR, digitsToNat, isPyWs]

/-- C9 counterexample: the two extract_float implementations disagree: on
"1/4" the paddle_scraper version returns 0.25 while the data_models version
returns the first decimal substring 1.0. -/
theorem extract_float_versions_differ :
    DataModels.extract_float "1/4".data ≠ PaddleScraper.extract_float "1/4".data := by
  have h₁ : DataModels.extract_float "1/4".data = some 1 := by
    simp [DataModels.extract_float, pyFindNumber, numTokenAt, floatParse,
      floatParseCore, expPart, pyStrip, stripL, stripR, digitsToNat, isPyWs]
  have h₂ : PaddleScraper.extract_float "1/4".data = some ((1 : ℚ) / 4) := by
    simp [PaddleScraper.extract_float, PaddleScraper.unitStrip,
      PaddleScraper.mixedBranch, PaddleScraper.fracBranch, PaddleScraper.fracValue,
      replaceAll, replaceAllFuel, pySplitWs, pySplitWsAux, splitOnChar, splitOnCharAux,
      pyFindNumber, numTokenAt, floatParse, floatParseCore, expPart, pyStrip, stripL,
      stripR, digitsToNat, isPyWs]
  rw [h₁, h₂]
  intro hc
  have : (1 : ℚ) = 1 / 4 := Option.some.inj hc
  norm_num at this

/-- C10: the identity assigner collides beyond the brand+model key: distinct
pairs with unequal brand and unequal model share the id "a-b-c", since
internal spaces and the brand-model separator are both rendered as '-'. -/
theorem paddle_id_collision :
    DataModels.generate_paddle_id "a b".data "c".data =
      DataModels.generate_paddle_id "a".data "b c".data ∧
    DataModels.generate_paddle_id "a b".data "c".data = "a-b-c".data ∧
    "a b".data ≠ "a".data ∧ "c".data ≠ "b c".data := by
  decide

/-- C6: the length-based shape classifier returns each category exactly on
the specified interval, thresholds inclusive at the lower bound, and the
boundary inputs 16.5, 16.25, 16.0 classify as Elongated, Hybrid, Wide-body. -/
theorem shape_classifier_thresholds (q : ℚ) :
    (DataModels.determine_paddle_shape_from_length q = "Elongated".data ↔
      (16.5 : ℚ) ≤ q) ∧
    (DataModels.determine_paddle_shape_from_length q = "Hybrid".data ↔
      (16.25 : ℚ) ≤ q ∧ q < (16.5 : ℚ)) ∧
    (DataModels.determine_paddle_shape_from_length q = "Wide-body".data ↔
      q < (16.25 : ℚ)) ∧
    DataModels.determine_paddle_shape_from_length (16.5 : ℚ) = "Elongated".data ∧
    DataModels.determine_paddle_shape_from_length (16.25 : ℚ) = "Hybrid".data ∧
    DataModels.determine_paddle_shape_from_length (16 : ℚ) = "Wide-body".data := by
  refine ⟨?_, ?_, ?_,
    by norm_num [DataModels.determine_paddle_shape_from_length],
    by norm_num [DataModels.determine_paddle_shape_from_length],
    by norm_num [DataModels.determine_paddle_shape_from_length]⟩
  · unfold DataModels.determine_paddle_shape_from_length
    split_ifs with h₁ h₂
    · exact iff_of_true rfl h₁
    · exact iff_of_false (by decide) h₁
    · exact iff_of_false (by decide) h₁
  · unfold DataModels.determine_paddle_shape_from_length
    split_ifs with h₁ h₂
    · exact iff_of_false (by decide) (fun hc => absurd hc.2 (not_lt.mpr h₁))
    · exact iff_of_true rfl ⟨h₂, not_le.mp h₁⟩
    · exact iff_of_false (by decide) (fun hc => absurd hc.1 h₂)
  · unfold DataModels.determine_paddle_shape_from_length
    split_ifs with h₁ h₂
    · exact iff_of_false (by decide)
        (fun hc => by have h := lt_of_le_of_lt h₁ hc; norm_num at h)
    · exact iff_of_false (by decide) (fun hc => absurd hc (not_lt.mpr h₂))
    · exact iff_of_true rfl (not_le.mp h₂)

/-- C8: the identity assigner is deterministic and case/whitespace-invariant:
the id is exactly the lower-cased, space-to-hyphen slug of brand and model
joined by a hyphen, equal post-normalization inputs give equal ids, and the
concrete Selkirk instance holds. -/
theorem assign_id_deterministic (b₁ m₁ b₂ m₂ : List Char)
    (hb : DataModels.slug b₁ = DataModels.slug b₂)
    (hm : DataModels.slug m₁ = DataModels.slug m₂) :
    DataModels.generate_paddle_id b₁ m₁ = DataModels.generate_paddle_id b₂ m₂ ∧
    DataModels.generate_paddle_id b₁ m₁ =
      DataModels.slug b₁ ++ '-' :: DataModels.slug m₁ ∧
    DataModels.generate_paddle_id "Selkirk".data "SLK Era".data =
      DataModels.generate_paddle_id "selkirk".data "slk era".data := by
  refine ⟨?_, rfl, by decide⟩
  unfold DataModels.generate_paddle_id
  rw [hb, hm]

/-- C7 amended: strategies for core thickness run in declared order, but the
short-circuit condition is truthiness, not mere parseability: a structured
value that parses and is non-zero is returned without consulting the later
strategies (the result does not depend on the description or title texts);
a structured value that is missing or parses to 0.0 falls through, and the
first later strategy with a truthy result supplies the value. -/
theorem core_strategy_order (sd : List (List Char × List Char))
    (st tt : List Char) :
    (∀ v : ℚ, GalaxyScraper.galaxyStructuredCore sd = some v → v ≠ 0 →
      GalaxyScraper.galaxyCoreThickness sd st tt = some v) ∧
    (GalaxyScraper.pyTruthy (GalaxyScraper.galaxyStructuredCore sd) = false →
      GalaxyScraper.pyTruthy (GalaxyScraper.galaxyRegexCore st) = true →
      GalaxyScraper.galaxyCoreThickness sd st tt = GalaxyScraper.galaxyRegexCore st) ∧
    (GalaxyScraper.pyTruthy (GalaxyScraper.galaxyStructuredCore sd) = false →
      GalaxyScraper.pyTruthy (GalaxyScraper.galaxyRegexCore st) = false →
      GalaxyScraper.pyTruthy (GalaxyScraper.galaxyTitleCore tt) = true →
      GalaxyScraper.galaxyCoreThickness sd st tt = GalaxyScraper.galaxyTitleCore tt) := by
  refine ⟨?_, ?_, ?_⟩
  · intro v h hv
    simp [GalaxyScraper.galaxyCoreThickness, h, GalaxyScraper.pyTruthy, hv]
  · intro h₀ h₁
    simp [GalaxyScraper.galaxyCoreThickness, h₀, h₁]
  · intro h₀ h₁ h₂
    simp [GalaxyScraper.galaxyCoreThickness, h₀, h₁, h₂]

/-- C7 witness: the ordering theorem applied at concrete documents: a
non-zero structured value short-circuits; with a missing structured key, the
regex strategy over the description supplies the value. -/
theorem core_strategy_order_witness :
    GalaxyScraper.galaxyCoreThickness [("core thickness".data, "14mm".data)]
      "core: 13".data "".data = some 14 ∧
    GalaxyScraper.galaxyCoreThickness [] "core: 13".data "".data = some 13 := by
  have e₁ : GalaxyScraper.galaxyStructuredCore
      [("core thickness".data, "14mm".data)] = some 14 := by
    simp [GalaxyScraper.galaxyStructuredCore, GalaxyScraper.lookupSpec,
      DataModels.extract_float, replaceAll, replaceAllFuel, pyFindNumber, numTokenAt,
      floatParse, floatParseCore, expPart, pyStrip, stripL, stripR, digitsToNat,
      isPyWs] <;> norm_num
  have e₂ : GalaxyScraper.galaxyRegexCore "core: 13".data = some 13 := by
    simp [GalaxyScraper.galaxyRegexCore, GalaxyScraper.searchNumMmCore,
      GalaxyScraper.pNumMmCoreAt, GalaxyScraper.searchLitNum, GalaxyScraper.pLitNumAt,
      GalaxyScraper.isColonWs, ciStartsWith, pyLowerChar, pyFindNumber, numTokenAt,
      floatParse, floatParseCore, expPart, pyStrip, stripL, stripR, digitsToNat,
      isPyWs] <;> norm_num
  have e₃ : GalaxyScraper.galaxyStructuredCore ([] : List (List Char × List Char)) =
      none := by
    simp [GalaxyScraper.galaxyStructuredCore, GalaxyScraper.lookupSpec]
  constructor
  · exact (core_strategy_order [("core thickness".data, "14mm".data)]
      "core: 13".data "".data).1 14 e₁ (by norm_num)
  · have h := (core_strategy_order [] "core: 13".data "".data).2.1
      (by rw [e₃]; rfl) (by rw [e₂]; simp [GalaxyScraper.pyTruthy])
    rw [h, e₂]

/-- C8 witness: the invariance theorem applied at the concrete Selkirk
inputs. -/
theorem assign_id_deterministic_witness :
    DataModels.generate_paddle_id "Selkirk".data "SLK Era".data =
      DataModels.generate_paddle_id "selkirk".data "slk era".data :=
  (assign_id_deterministic "Selkirk".data "SLK Era".data "selkirk".data
    "slk era".data (by decide) (by decide)).1

/-! ## Digit-free inputs yield Missing: supporting lemmas -/

theorem takeWhile_isDigit_nil {s : List Char} (h : ∀ c ∈ s, c.isDigit = false) :
    s.takeWhile Char.isDigit = [] := by
  cases s with
  | nil => rfl
  | cons c cs => simp [List.takeWhile, h c (by simp)]

theorem dropWhile_isDigit_self {s : List Char} (h : ∀ c ∈ s, c.isDigit = false) :
    s.dropWhile Char.isDigit = s := by
  cases s with
  | nil => rfl
  | cons c cs => simp [List.dropWhile, h c (by simp)]

theorem mem_of_mem_stripL {c : Char} {s : List Char} (h : c ∈ stripL s) : c ∈ s :=
  (List.dropWhile_sublist isPyWs).subset h

theorem mem_of_mem_stripR {c : Char} {s : List Char} (h : c ∈ stripR s) : c ∈ s := by
  unfold stripR at h
  rw [List.mem_reverse] at h
  have := (List.dropWhile_sublist isPyWs).subset h
  rwa [List.mem_reverse] at this

theorem mem_of_mem_pyStrip {c : Char} {s : List Char} (h : c ∈ pyStrip s) : c ∈ s :=
  mem_of_mem_stripL (mem_of_mem_stripR h)

theorem mem_of_mem_replaceAllFuel {c : Char} {pat rep : List Char} :
    ∀ (f : Nat) (s : List Char), c ∈ replaceAllFuel pat rep f s → c ∈ s ∨ c ∈ rep := by
  intro f
  induction f with
  | zero => intro s h; exact Or.inl h
  | succ f ih =>
    intro s h
    cases s with
    | nil => simp [replaceAllFuel] at h
    | cons a as =>
      rw [replaceAllFuel] at h
      by_cases hc : pat ≠ [] ∧ pat.isPrefixOf (a :: as)
      · rw [if_pos hc, List.mem_append] at h
        rcases h with h | h
        · exact Or.inr h
        · rcases ih _ h with h | h
          · exact Or.inl (List.drop_subset _ _ h)
          · exact Or.inr h
      · rw [if_neg hc, List.mem_cons] at h
        rcases h with h | h
        · exact Or.inl (h ▸ List.mem_cons_self a as)
        · rcases ih _ h with h | h
          · exact Or.inl (List.mem_cons_of_mem a h)
          · exact Or.inr h

theorem mem_of_mem_replaceAll {c : Char} {pat s : List Char}
    (h : c ∈ replaceAll pat [] s) : c ∈ s := by
  rcases mem_of_mem_replaceAllFuel _ _ h with h | h
  · exact h
  · simp at h

theorem floatParseCore_eq_none {t : List Char} (h : ∀ c ∈ t, c.isDigit = false) :
    floatParseCore t = none := by
  have htail : ∀ c ∈ (t.dropWhile Char.isDigit).tail, c.isDigit = false := by
    rw [dropWhile_isDigit_self h]
    exact fun c hc => h c (List.mem_of_mem_tail hc)
  unfold floatParseCore
  rw [takeWhile_isDigit_nil h]
  by_cases hdot : (t.dropWhile Char.isDigit).head? = some '.'
  · simp [hdot, takeWhile_isDigit_nil htail]
  · simp [hdot]

theorem floatParse_eq_none {s : List Char} (h : ∀ c ∈ s, c.isDigit = false) :
    floatParse s = none := by
  have ht : ∀ c ∈ pyStrip s, c.isDigit = false := fun c hc => h c (mem_of_mem_pyStrip hc)
  have httail : ∀ c ∈ (pyStrip s).tail, c.isDigit = false :=
    fun c hc => ht c (List.mem_of_mem_tail hc)
  unfold floatParse
  by_cases h₁ : (pyStrip s).head? = some '+'
  · simp only [h₁, if_pos]
    exact floatParseCore_eq_none httail
  · by_cases h₂ : (pyStrip s).head? = some '-'
    · simp only [h₁, h₂, if_neg, if_pos]
      rw [floatParseCore_eq_none httail]
      rfl
    · simp only [h₁, h₂, if_neg]
      exact floatParseCore_eq_none ht

theorem pyFindNumber_eq_none {s : List Char} (h : ∀ c ∈ s, c.isDigit = false) :
    pyFindNumber s = none := by
  induction s with
  | nil => rfl
  | cons c cs ih =>
    rw [pyFindNumber, if_neg (by simp [h c (by simp)])]
    exact ih (fun a ha => h a (List.mem_cons_of_mem c ha))

theorem dm_extract_float_eq_none {s : List Char} (h : ∀ c ∈ s, c.isDigit = false) :
    DataModels.extract_float s = none := by
  unfold DataModels.extract_float
  by_cases hs : s = []
  · rw [if_pos hs]
  · rw [if_neg hs, pyFindNumber_eq_none h]

theorem mem_of_mem_pySplitWsAux {c : Char} :
    ∀ (s acc part : List Char), part ∈ pySplitWsAux s acc → c ∈ part →
      c ∈ s ∨ c ∈ acc := by
  intro s
  induction s with
  | nil =>
    intro acc part hp hc
    by_cases ha : acc = []
    · simp [pySplitWsAux, ha] at hp
    · rw [pySplitWsAux, if_neg ha] at hp
      simp at hp
      subst hp
      exact Or.inr (List.mem_reverse.mp hc)
  | cons d ds ih =>
    intro acc part hp hc
    rw [pySplitWsAux] at hp
    by_cases hd : isPyWs d
    · rw [if_pos hd] at hp
      by_cases ha : acc = []
      · rw [if_pos ha] at hp
        rcases ih [] part hp hc with h | h
        · exact Or.inl (List.mem_cons_of_mem d h)
        · simp at h
      · rw [if_neg ha, List.mem_cons] at hp
        rcases hp with hp | hp
        · exact Or.inr (List.mem_reverse.mp (hp ▸ hc))
        · rcases ih [] part hp hc with h | h
          · exact Or.inl (List.mem_cons_of_mem d h)
          · simp at h
    · rw [if_neg hd] at hp
      rcases ih (d :: acc) part hp hc with h | h
      · exact Or.inl (List.mem_cons_of_mem d h)
      · rcases List.mem_cons.mp h with h | h
        · exact Or.inl (h ▸ List.mem_cons_self d ds)
        · exact Or.inr h

theorem mem_of_mem_pySplitWs {c : Char} {s part : List Char}
    (hp : part ∈ pySplitWs s) (hc : c ∈ part) : c ∈ s := by
  rcases mem_of_mem_pySplitWsAux s [] part hp hc with h | h
  · exact h
  · simp at h

theorem mem_of_mem_splitOnCharAux {c : Char} {sep : Char} :
    ∀ (s acc part : List Char), part ∈ splitOnCharAux sep s acc → c ∈ part →
      c ∈ s ∨ c ∈ acc := by
  intro s
  induction s with
  | nil =>
    intro acc part hp hc
    simp [splitOnCharAux] at hp
    subst hp
    exact Or.inr (List.mem_reverse.mp hc)
  | cons d ds ih =>
    intro acc part hp hc
    rw [splitOnCharAux] at hp
    by_cases hd : d = sep
    · rw [if_pos hd, List.mem_cons] at hp
      rcases hp with hp | hp
      · exact Or.inr (List.mem_reverse.mp (hp ▸ hc))
      · rcases ih [] part hp hc with h | h
        · exact Or.inl (List.mem_cons_of_mem d h)
        · simp at h
    · rw [if_neg hd] at hp
      rcases ih (d :: acc) part hp hc with h | h
      · exact Or.inl (List.mem_cons_of_mem d h)
      · rcases List.mem_cons.mp h with h | h
        · exact Or.inl (h ▸ List.mem_cons_self d ds)
        · exact Or.inr h

theorem mem_of_mem_splitOnChar {c sep : Char} {s part : List Char}
    (hp : part ∈ splitOnChar sep s) (hc : c ∈ part) : c ∈ s := by
  rcases mem_of_mem_splitOnCharAux s [] part hp hc with h | h
  · exact h
  · simp at h

theorem mem_of_mem_unitStrip {c : Char} {s : List Char}
    (h : c ∈ PaddleScraper.unitStrip s) : c ∈ s :=
  mem_of_mem_replaceAll (mem_of_mem_replaceAll (mem_of_mem_replaceAll
    (mem_of_mem_pyStrip h)))

theorem mixedBranch_eq_none {t : List Char} (h : ∀ c ∈ t, c.isDigit = false) :
    PaddleScraper.mixedBranch t = none := by
  unfold PaddleScraper.mixedBranch
  by_cases hsp : ' ' ∈ t
  · rw [if_pos hsp]
    split
    · rename_i p₀ p₁ heq
      have : floatParse p₀ = none := by
        refine floatParse_eq_none (fun c hc => ?_)
        exact h c (mem_of_mem_pySplitWs (heq ▸ List.mem_cons_self _ _) hc)
      rw [this]
    · rfl
  · rw [if_neg hsp]

theorem fracBranch_eq_none {t : List Char} (h : '/' ∉ t) :
    PaddleScraper.fracBranch t = none := by
  unfold PaddleScraper.fracBranch
  rw [if_neg (fun hc => h hc.1)]

theorem ps_extract_float_eq_none {s : List Char}
    (hd : ∀ c ∈ s, c.isDigit = false) (hs : '/' ∉ s) :
    PaddleScraper.extract_float s = none := by
  unfold PaddleScraper.extract_float
  by_cases he : s = []
  · rw [if_pos he]
  · rw [if_neg he]
    have hdt : ∀ c ∈ PaddleScraper.unitStrip s, c.isDigit = false :=
      fun c hc => hd c (mem_of_mem_unitStrip hc)
    simp only [mixedBranch_eq_none hdt,
      fracBranch_eq_none (fun hc => hs (mem_of_mem_unitStrip hc)),
      pyFindNumber_eq_none hdt]

/-- C5 amended: a fraction or mixed number with a zero denominator or a
partially non-numeric part does not yield Missing: the failed fraction
branches fall through to the first-decimal-substring rule ("1/0" gives 1.0,
"4 1/0" gives 4.0); the normalizer returns Missing exactly when nothing
numeric remains, in particular on every input containing neither a digit nor
a slash. -/
theorem extract_float_missing_only_without_digits (s : List Char)
    (hd : ∀ c ∈ s, c.isDigit = false) (hs : '/' ∉ s) :
    PaddleScraper.extract_float s = none ∧
    PaddleScraper.extract_float "1/0".data = some 1 ∧
    PaddleScraper.extract_float "4 1/0".data = some 4 ∧
    PaddleScraper.extract_float "a/b".data = none := by
  refine ⟨ps_extract_float_eq_none hd hs, ?_, ?_, ?_⟩ <;>
    simp [PaddleScraper.extract_float, PaddleScraper.unitStrip,
      PaddleScraper.mixedBranch, PaddleScraper.fracBranch, PaddleScraper.fracValue,
      replaceAll, replaceAllFuel, pySplitWs, pySplitWsAux, splitOnChar, splitOnCharAux,
      pyFindNumber, numTokenAt, floatParse, floatParseCore, expPart, pyStrip, stripL,
      stripR, digitsToNat, isPyWs]

/-- C5 witness: the amended theorem applied at "not a number" (which is
digit- and slash-free, matching the specification's own Missing example). -/
theorem extract_float_missing_only_without_digits_witness :
    PaddleScraper.extract_float "not a number".data = none ∧
    PaddleScraper.extract_float "1/0".data = some 1 ∧
    PaddleScraper.extract_float "4 1/0".data = some 4 ∧
    PaddleScraper.extract_float "a/b".data = none :=
  extract_float_missing_only_without_digits "not a number".data
    (by decide) (by decide)

/-- C9 amended: the two extract_float implementations are not equivalent:
the data_models version reads only the first decimal substring, so they
disagree on "1/4" (1.0 against 0.25); both return Missing on every input
containing neither a digit nor a slash. -/
theorem extract_float_versions_agreement (s : List Char)
    (hd : ∀ c ∈ s, c.isDigit = false) (hs : '/' ∉ s) :
    (DataModels.extract_float s = none ∧ PaddleScraper.extract_float s = none) ∧
    DataModels.extract_float "1/4".data = some 1 ∧
    PaddleScraper.extract_float "1/4".data = some ((1 : ℚ) / 4) := by
  refine ⟨⟨dm_extract_float_eq_none hd, ps_extract_float_eq_none hd hs⟩, ?_, ?_⟩
  · simp [DataModels.extract_float, pyFindNumber, numTokenAt, floatParse,
      floatParseCore, expPart, pyStrip, stripL, stripR, digitsToNat, isPyWs]
  · simp [PaddleScraper.extract_float, PaddleScraper.unitStrip,
      PaddleScraper.mixedBranch, PaddleScraper.fracBranch, PaddleScraper.fracValue,
      replaceAll, replaceAllFuel, pySplitWs, pySplitWsAux, splitOnChar, splitOnCharAux,
      pyFindNumber, numTokenAt, floatParse, floatParseCore, expPart, pyStrip, stripL,
      stripR, digitsToNat, isPyWs]

/-- C3 amended: the mean-of-range rule lives in the galaxy scraper's inline
weight handling, not in extract_float: on a 'weight' value whose
ounces-stripped text splits at '-' into exactly two parts, the handler
returns the arithmetic mean of the two bounds when both parse as floats, and
fails (None) when either bound fails to parse; extract_float itself returns
the first decimal substring for such inputs. -/
theorem galaxy_weight_range_mean (w u v : List Char) (a b : ℚ)
    (hdash : '-' ∈ pyStrip (replaceAll "ounces".data [] w))
    (hsplit : splitOnChar '-' (pyStrip (replaceAll "ounces".data [] w)) = [u, v]) :
    (floatParse u = some a → floatParse v = some b →
      GalaxyScraper.galaxyWeightValue w = some ((a + b) / 2)) ∧
    (floatParse u = none → GalaxyScraper.galaxyWeightValue w = none) ∧
    (floatParse v = none → GalaxyScraper.galaxyWeightValue w = none) := by
  refine ⟨?_, ?_, ?_⟩
  · intro h₁ h₂
    simp [GalaxyScraper.galaxyWeightValue, hdash, hsplit, h₁, h₂]
  · intro h₁
    simp [GalaxyScraper.galaxyWeightValue, hdash, hsplit, h₁]
  · intro h₁
    cases h₂ : floatParse u <;>
      simp [GalaxyScraper.galaxyWeightValue, hdash, hsplit, h₁, h₂]

/-- C3 witness: the range-mean theorem applied at the specification's own
example "7.9-8.3 ounces", giving the mean 8.1. -/
theorem galaxy_weight_range_mean_witness :
    GalaxyScraper.galaxyWeightValue "7.9-8.3 ounces".data = some ((81 : ℚ) / 10) := by
  have hu : floatParse "7.9".data = some ((79 : ℚ) / 10) := by
    simp [floatParse, floatParseCore, expPart, pyStrip, stripL, stripR,
      digitsToNat, isPyWs] <;> norm_num
  have hv : floatParse "8.3".data = some ((83 : ℚ) / 10) := by
    simp [floatParse, floatParseCore, expPart, pyStrip, stripL, stripR,
      digitsToNat, isPyWs] <;> norm_num
  have h := (galaxy_weight_range_mean "7.9-8.3 ounces".data "7.9".data "8.3".data
    ((79 : ℚ) / 10) ((83 : ℚ) / 10) (by decide) (by decide)).1 hu hv
  rw [h]
  norm_num

/-- C9 witness: the agreement theorem applied at the digit- and slash-free
input "no value". -/
theorem extract_float_versions_agreement_witness :
    (DataModels.extract_float "no value".data = none ∧
      PaddleScraper.extract_float "no value".data = none) ∧
    DataModels.extract_float "1/4".data = some 1 ∧
    PaddleScraper.extract_float "1/4".data = some ((1 : ℚ) / 4) :=
  extract_float_versions_agreement "no value".data (by decide) (by decide)

/-! ## Cleaned normal forms are fixed points of the name cleaner -/

theorem truncAtPipe_self {s : List Char} (h : '|' ∉ s) :
    DataModels.truncAtPipe s = s := by
  simp [DataModels.truncAtPipe, h]

theorem removePipeChars_self {s : List Char}
    (h : ∀ c ∈ s, DataModels.pipeChars.contains c = false) :
    DataModels.removePipeChars s = s :=
  List.filter_eq_self.mpr (fun c hc => by
    have hc₂ := h c hc
    simp at hc₂ ⊢
    exact hc₂)

theorem stripL_self {s : List Char} (h₁ : s.head? ≠ some ' ')
    (h₂ : ∀ c ∈ s, isPyWs c = true → c = ' ') : stripL s = s := by
  cases s with
  | nil => rfl
  | cons a as =>
    unfold stripL
    rw [List.dropWhile_cons, if_neg]
    intro hpa
    have ha := h₂ a (List.mem_cons_self a as) hpa
    exact h₁ (by rw [ha]; rfl)

theorem stripR_self {s : List Char} (h₁ : s.getLast? ≠ some ' ')
    (h₂ : ∀ c ∈ s, isPyWs c = true → c = ' ') : stripR s = s := by
  unfold stripR
  have hrev : s.reverse.dropWhile isPyWs = s.reverse := by
    cases hr : s.reverse with
    | nil => rfl
    | cons a as =>
      rw [List.dropWhile_cons, if_neg]
      intro hpa
      have ha : a ∈ s := by
        rw [← List.mem_reverse, hr]
        exact List.mem_cons_self a as
      have haeq := h₂ a ha hpa
      apply h₁
      rw [← List.head?_reverse, hr, haeq]
      rfl
  rw [hrev, List.reverse_reverse]

theorem pyStrip_self {s : List Char} (h₁ : s.head? ≠ some ' ')
    (h₁' : s.getLast? ≠ some ' ')
    (h₂ : ∀ c ∈ s, isPyWs c = true → c = ' ') : pyStrip s = s := by
  unfold pyStrip
  rw [stripL_self h₁ h₂, stripR_self h₁' h₂]

theorem foldl_stripSuffixStep_self :
    ∀ (L : List (List Char)) (s : List Char),
      (∀ suf ∈ L, suf.isSuffixOf s = false) →
        L.foldl DataModels.stripSuffixStep s = s := by
  intro L
  induction L with
  | nil => intro s _; rfl
  | cons a L ih =>
    intro s h
    rw [List.foldl_cons]
    have ha : DataModels.stripSuffixStep s a = s := by
      unfold DataModels.stripSuffixStep
      simp [h a (List.mem_cons_self a L)]
    rw [ha]
    exact ih s (fun suf hs => h suf (List.mem_cons_of_mem a hs))

theorem stripSuffixes_self {s : List Char}
    (h : ∀ suf ∈ DataModels.unwantedSuffixes, suf.isSuffixOf s = false) :
    DataModels.stripSuffixes s = s :=
  foldl_stripSuffixStep_self _ s h

theorem splitFirst_eq_none {t : Char} {s : List Char} (h : t ∉ s) :
    DataModels.splitFirst t s = none := by
  induction s with
  | nil => rfl
  | cons a as ih =>
    unfold DataModels.splitFirst
    rw [if_neg (fun hc : a = t => h (hc ▸ List.mem_cons_self a as)),
      ih (fun hc => h (List.mem_cons_of_mem a hc))]
    rfl

theorem parenSubFuel_self {s : List Char} (h : '(' ∉ s) :
    ∀ f, DataModels.parenSubFuel f s = s := by
  intro f
  cases f with
  | zero => rfl
  | succ f =>
    unfold DataModels.parenSubFuel
    rw [splitFirst_eq_none h]

theorem removeParens_self {s : List Char} (h : '(' ∉ s)
    (h₁ : s.head? ≠ some ' ') (h₁' : s.getLast? ≠ some ' ')
    (h₂ : ∀ c ∈ s, isPyWs c = true → c = ' ') :
    DataModels.removeParens s = s := by
  unfold DataModels.removeParens DataModels.parenSub
  rw [parenSubFuel_self h, pyStrip_self h₁ h₁' h₂]

theorem ciOccurs_cons_false {pat : List Char} {c : Char} {cs : List Char}
    (h : ciOccurs pat (c :: cs) = false) :
    ciStartsWith pat (c :: cs) = false ∧ ciOccurs pat cs = false := by
  rw [ciOccurs] at h
  exact ⟨by simp_all, by simp_all⟩

theorem removeWordCiFuel_self {pat : List Char} :
    ∀ (s : List Char) (f : Nat) (prev : Option Char),
      ciOccurs pat s = false → DataModels.removeWordCiFuel pat f prev s = s := by
  intro s
  induction s with
  | nil =>
    intro f prev _
    cases f <;> rfl
  | cons c cs ih =>
    intro f prev h
    have hparts := ciOccurs_cons_false h
    cases f with
    | zero => rfl
    | succ f =>
      unfold DataModels.removeWordCiFuel
      rw [if_neg (by simp [hparts.1]), ih f (some c) hparts.2]

theorem removeWordCi_self {pat s : List Char} (h : ciOccurs pat s = false) :
    DataModels.removeWordCi pat s = s :=
  removeWordCiFuel_self s s.length none h

theorem removeDescriptors_self {s : List Char}
    (h : ∀ d ∈ DataModels.commonDescriptors, ciOccurs d s = false) :
    DataModels.removeDescriptors s = s := by
  unfold DataModels.removeDescriptors
  have hgen : ∀ (L : List (List Char)),
      (∀ d ∈ L, ciOccurs d s = false) →
        L.foldl (fun acc d => DataModels.removeWordCi d acc) s = s := by
    intro L
    induction L with
    | nil => intro _; rfl
    | cons a L ih =>
      intro hL
      rw [List.foldl_cons, removeWordCi_self (hL a (List.mem_cons_self a L))]
      exact ih (fun d hd => hL d (List.mem_cons_of_mem a hd))
  exact hgen _ h

theorem collapseWs_cons (c : Char) (cs : List Char) :
    DataModels.collapseWs (c :: cs) = DataModels.collapseStep c (DataModels.collapseWs cs) :=
  rfl

theorem collapseWs_self {s : List Char}
    (h₂ : ∀ c ∈ s, isPyWs c = true → c = ' ')
    (h₃ : noDoubleSpace s = true) : DataModels.collapseWs s = s := by
  induction s with
  | nil => rfl
  | cons c cs ih =>
    have hcs₂ : ∀ a ∈ cs, isPyWs a = true → a = ' ' :=
      fun a ha hp => h₂ a (List.mem_cons_of_mem c ha) hp
    have hcs₃ : noDoubleSpace cs = true := by
      cases cs with
      | nil => rfl
      | cons b bs =>
        rw [noDoubleSpace] at h₃
        exact (Bool.and_eq_true _ _ |>.mp h₃).2
    rw [collapseWs_cons, ih hcs₂ hcs₃]
    unfold DataModels.collapseStep
    by_cases hws : isPyWs c
    · have hc' : c = ' ' := h₂ c (List.mem_cons_self c cs) hws
      subst hc'
      rw [if_pos hws]
      cases cs with
      | nil => rfl
      | cons b bs =>
        have hb : ¬ b = ' ' := by
          intro hb
          subst hb
          rw [noDoubleSpace] at h₃
          simp at h₃
        split
        · rename_i heq
          exact absurd (List.cons.inj heq).1 hb
        · rfl
    · rw [if_neg hws]

theorem clean_model_name_fixed {s : List Char} (h : CleanNF s) :
    DataModels.clean_model_name s = s := by
  obtain ⟨hpipe, hws, hdbl, hhead, hlast, hparen, hsuf, hdesc⟩ := h
  have hbar : '|' ∉ s := fun hm => by
    have hc := hpipe '|' hm
    simp [DataModels.pipeChars] at hc
  unfold DataModels.clean_model_name
  by_cases hnil : s = []
  · rw [if_pos hnil]
  · rw [if_neg hnil]
    have e₁ : DataModels.removePipeChars (DataModels.truncAtPipe s) = s := by
      rw [truncAtPipe_self hbar, removePipeChars_self hpipe]
    have e₂ : DataModels.stripSuffixes s = s := stripSuffixes_self hsuf
    have e₃ : DataModels.removeParens s = s :=
      removeParens_self hparen hhead hlast hws
    have e₄ : DataModels.removeDescriptors s = s := removeDescriptors_self hdesc
    have e₅ : pyStrip (DataModels.collapseWs s) = s := by
      rw [collapseWs_self hws hdbl, pyStrip_self hhead hlast hws]
    simp only [e₁, e₂, e₃, e₄, e₅]

/-- C4 amended: the name cleaner is idempotent on inputs whose cleaned
output is in cleaned normal form (no pipes, normalized whitespace, no
parentheses, no trailing unwanted suffix, no descriptor occurrence): such an
output is a fixed point, so re-applying the cleaner is a no-op there.  Full
idempotence fails: a later step can expose a new trailing suffix, as in
"Alpha Paddle (Blue)". -/
theorem clean_model_name_idempotent_on_normal_forms (x : List Char)
    (h : CleanNF (DataModels.clean_model_name x)) :
    DataModels.clean_model_name (DataModels.clean_model_name x) =
      DataModels.clean_model_name x :=
  clean_model_name_fixed h

/-- C4 witness: the idempotence theorem applied at the specification's own
example "Selkirk Paddle | SALE", whose cleaned output "Selkirk" is in
cleaned normal form. -/
theorem clean_model_name_idempotent_on_normal_forms_witness :
    CleanNF (DataModels.clean_model_name "Selkirk Paddle | SALE".data) ∧
    DataModels.clean_model_name
        (DataModels.clean_model_name "Selkirk Paddle | SALE".data) =
      DataModels.clean_model_name "Selkirk Paddle | SALE".data :=
  ⟨by decide, clean_model_name_idempotent_on_normal_forms _ (by decide)⟩

end Spec2Proof
